import Mathlib

/-!
Shallow embedding of the race-time predictor from `server/src/predictor.ts`
(concatenated into `server/src/index.ts`).  JavaScript numbers are modelled
by rationals for the data-cleaning pipeline (only comparisons, division and
a median are used there) and by reals inside the regression (which uses
`log`, `exp`, `pow` and `sqrt`).  A raw JSON numeric field may be non-finite
(`NaN`/`±Infinity`); the only operation the source applies to a possibly
non-finite value is `isFinite`, so such a field is modelled by `JsNum`.
-/

namespace StravaPredictor

/-- Result of JavaScript `Number(...)` on a raw field: either a finite
value or a non-finite one (`NaN`, `Infinity`, `-Infinity`).  The source
only ever checks `isFinite` before using the value. -/
inductive JsNum where
  | fin (q : ℚ)
  | nonfinite
  deriving DecidableEq, Repr

/-- `isFinite` on a raw numeric field. -/
def JsNum.isFinite : JsNum → Bool
  | .fin _ => true
  | .nonfinite => false

/-- A raw Strava activity as consumed by `mapStravaAct`:
`type`, `distance` (m), `moving_time` (s), `elapsed_time` (s, may be
absent), and `start_date` already put through `new Date(...).getTime()`
(epoch milliseconds; `none` when the date string does not parse). -/
structure RawAct where
  type : Option String
  distance : JsNum
  moving_time : JsNum
  elapsed_time : Option JsNum
  start_date : Option ℚ
  deriving DecidableEq, Repr

/-- A cleaned observation (`Point` in the source): distance in meters,
moving time in seconds, optional elapsed time in seconds, start timestamp
in epoch milliseconds. -/
structure Point where
  distance : ℚ
  movingTime : ℚ
  elapsedTime : Option ℚ
  startDate : ℚ
  deriving DecidableEq, Repr

-- ---- Tunables (source lines 219-222) ----
def HALF_LIFE_DAYS : ℚ := 60
def MIN_DISTANCE_M : ℚ := 800
def MIN_POINTS : Nat := 4
def pauseRatioMin : ℚ := 8/10

/-- `recencyWeight(start, now)`: age in ms clamped at 0, converted to days,
then `0.5 ^ (days / 60)`. -/
noncomputable def recencyWeight (start now : ℚ) : ℝ :=
  ((1 : ℝ) / 2) ^ (((max 0 (now - start)) / 86400000 / HALF_LIFE_DAYS : ℚ) : ℝ)

/-- `median(nums)`: 0 on the empty list, middle element of the sorted list
for odd length, mean of the two middle elements for even length. -/
def median (nums : List ℚ) : ℚ :=
  let n := nums.length
  if n = 0 then 0
  else
    let arr := nums.mergeSort (fun a b => a ≤ b)
    let mid := n / 2
    if n % 2 = 1 then arr.getD mid 0
    else (arr.getD (mid - 1) 0 + arr.getD mid 0) / 2

/-- JavaScript `toLowerCase()` (Lean `String.toLower`): lower-case every
character.  Written through `List.map` over the string's characters — the
same function, but in a form concrete instances can evaluate. -/
def lowercase (s : String) : String := ⟨s.data.map Char.toLower⟩

/-- Normalize a raw Strava activity into a `Point` (`mapStravaAct`):
reject unless the type label lower-cases to `"run"`, the distance and
moving time are finite, and the start date parses; keep the elapsed time
only when present and finite. -/
def mapStravaAct (a : RawAct) : Option Point :=
  match a.type with
  | none => none
  | some t =>
    if lowercase t = "run" then
      match a.distance, a.moving_time, a.start_date with
      | .fin d, .fin m, some s =>
        some { distance := d, movingTime := m,
               elapsedTime := match a.elapsed_time with
                 | some (.fin e) => some e
                 | _ => none,
               startDate := s }
      | _, _, _ => none
    else none

/-- The fitted model (`FitResult`): intercept `logA`, slope `b`, weighted
root-mean-square residual `rmseLog` in log space. -/
structure FitResult where
  logA : ℝ
  b : ℝ
  rmseLog : ℝ

/-- `Math.log(p.distance)` for a point. -/
noncomputable def xlog (p : Point) : ℝ := Real.log (p.distance : ℝ)

/-- `Math.log(p.movingTime)` for a point. -/
noncomputable def ylog (p : Point) : ℝ := Real.log (p.movingTime : ℝ)

/-- `Σ wᵢ` accumulated over the points (loop variable `sw`). -/
noncomputable def sumW (pts : List Point) (now : ℚ) : ℝ :=
  (pts.map (fun p => recencyWeight p.startDate now)).sum

/-- `Σ wᵢ·xᵢ` (loop variable `swx`). -/
noncomputable def sumWX (pts : List Point) (now : ℚ) : ℝ :=
  (pts.map (fun p => recencyWeight p.startDate now * xlog p)).sum

/-- `Σ wᵢ·yᵢ` (loop variable `swy`). -/
noncomputable def sumWY (pts : List Point) (now : ℚ) : ℝ :=
  (pts.map (fun p => recencyWeight p.startDate now * ylog p)).sum

/-- `Σ wᵢ·xᵢ·xᵢ` (loop variable `swxx`). -/
noncomputable def sumWXX (pts : List Point) (now : ℚ) : ℝ :=
  (pts.map (fun p => recencyWeight p.startDate now * xlog p * xlog p)).sum

/-- `Σ wᵢ·xᵢ·yᵢ` (loop variable `swxy`). -/
noncomputable def sumWXY (pts : List Point) (now : ℚ) : ℝ :=
  (pts.map (fun p => recencyWeight p.startDate now * xlog p * ylog p)).sum

/-- The normal-equations determinant `det = sw·swxx − swx·swx`. -/
noncomputable def fitDet (pts : List Point) (now : ℚ) : ℝ :=
  sumW pts now * sumWXX pts now - sumWX pts now * sumWX pts now

/-- Weighted sum of squared log-space residuals (loop variable `sse`)
for intercept `beta0` and slope `beta1`. -/
noncomputable def fitSSE (pts : List Point) (now : ℚ) (beta0 beta1 : ℝ) : ℝ :=
  (pts.map (fun p =>
    recencyWeight p.startDate now *
      (ylog p - (beta0 + beta1 * xlog p)) * (ylog p - (beta0 + beta1 * xlog p)))).sum

open Classical in
/-- `fitPowerLaw(points)`: weighted least squares of `log(time)` on
`log(distance)` with recency weights; `null` when fewer than 2 points or
when the system is degenerate (`det` not finite, `|det| < 1e-12`, or
`sw = 0`).  Reals have no non-finite values, so the `isFinite(det)` guard
is vacuous here; the other two guards are kept verbatim. -/
noncomputable def fitPowerLaw (pts : List Point) (now : ℚ) : Option FitResult :=
  if pts.length < 2 then none
  else
    let sw := sumW pts now
    let det := fitDet pts now
    if |det| < 1e-12 ∨ sw = 0 then none
    else
      let beta0 := (sumWY pts now * sumWXX pts now - sumWX pts now * sumWXY pts now) / det
      let beta1 := (sw * sumWXY pts now - sumWX pts now * sumWY pts now) / det
      some { logA := beta0, b := beta1,
             rmseLog := Real.sqrt (fitSSE pts now beta0 beta1 / sw) }

/-- `predictSeconds(logA, b, distanceM) = exp(logA) * distanceM ^ b`. -/
noncomputable def predictSeconds (logA b distanceM : ℝ) : ℝ :=
  Real.exp logA * distanceM ^ b

/-- Left-pad a decimal rendering to two characters (`padStart(2, "0")`). -/
def pad2 (n : ℤ) : String :=
  let s := toString n
  if s.length < 2 then "0" ++ s else s

/-- `formatHHMMSS(totalSec)`: round (half-up, like `Math.round`), clamp at
0, and render as `H:MM:SS`, omitting the hour field when it is zero. -/
noncomputable def formatHHMMSS (totalSec : ℝ) : String :=
  let sec : ℤ := max 0 (round totalSec)
  let h := sec / 3600
  let m := sec % 3600 / 60
  let s := sec % 60
  if h ≠ 0 then toString h ++ ":" ++ pad2 m ++ ":" ++ pad2 s
  else toString m ++ ":" ++ pad2 s

/-- `pacePerKm(totalSec, km)`: seconds per km (0 when `km ≤ 0`), rendered
as `MM:SS/km`; `spk % 60` is JavaScript float remainder, which for the
nonnegative values here is `spk - 60*⌊spk/60⌋`. -/
noncomputable def pacePerKm (totalSec : ℝ) (km : ℚ) : String :=
  let spk : ℝ := if (0 : ℚ) < km then totalSec / (km : ℝ) else 0
  let mm : ℤ := ⌊spk / 60⌋
  let ss : ℤ := round (spk - 60 * (⌊spk / 60⌋ : ℝ))
  toString mm ++ ":" ++ pad2 ss ++ "/km"

/-- The error taxonomy of `predictPerformance` as seen by the caller:
HTTP 400 for a bad target distance, 400 with a stage-specific message for
too few points, 500 for a degenerate fit.  (The 401 identity check happens
before any data is touched and is external to the algorithm.) -/
inductive PredictError where
  | invalidInput
  | insufficientData (msg : String)
  | modelFitFailed
  deriving DecidableEq, Repr

/-- Stage-1 failure message (source line 367). -/
def msgNeedRuns : String := "Need at least 4 valid runs"

/-- Stage-2 failure message (source line 376). -/
def msgNotClean : String := "Not enough clean runs after filtering"

/-- Stage-3 failure message (source line 388). -/
def msgOutliers : String := "Too many outliers removed; collect a few more steady runs"

/-- The JSON success payload of `predictPerformance`.  `predictionSeconds`
is kept unrounded (`toFixed(1)` is display formatting of the same value). -/
structure Success where
  distanceKm : ℚ
  predictionSeconds : ℝ
  predictionTime : String
  pacePerKmStr : String
  confidenceLowTime : String
  confidenceHighTime : String
  logA : ℝ
  b : ℝ
  rmseLog : ℝ
  usedPoints : Nat

/-- Stage 1 (source lines 361-364): normalize every activity via
`mapStravaAct`, drop the nulls, then keep points with
`distance > MIN_DISTANCE_M` and `movingTime > 0`. -/
def stage1 (acts : List RawAct) : List Point :=
  (acts.filterMap mapStravaAct).filter
    (fun p => decide (MIN_DISTANCE_M < p.distance) && decide (0 < p.movingTime))

/-- The pause-filter predicate (source lines 371-374): a point with no
usable elapsed time (absent or `≤ 0`) is kept; otherwise it is kept iff
`movingTime / elapsedTime ≥ 0.8`. -/
def pauseOk (p : Point) : Bool :=
  match p.elapsedTime with
  | none => true
  | some e => if e ≤ 0 then true else decide (pauseRatioMin ≤ p.movingTime / e)

/-- Stage 2: filter pause-heavy points. -/
def stage2 (pts : List Point) : List Point := pts.filter pauseOk

/-- Per-point pace `movingTime / distance` (seconds per meter). -/
def pace (p : Point) : ℚ := p.movingTime / p.distance

/-- Stage 3 (source lines 380-386): compute every point's pace and the
median pace, and keep the points whose pace lies in
`[0.5·median, 2.0·median]`.  The source filters by index into the `paces`
array; since `paces[i]` is the pace of `pts[i]`, this is the same
function as filtering each point by its own pace. -/
def stage3 (pts : List Point) : List Point :=
  let med := median (pts.map pace)
  pts.filter (fun p => decide (1/2 * med ≤ pace p) && decide (pace p ≤ 2 * med))

open Classical in
/-- The deterministic core of `predictPerformance` (source lines 347-414),
from the fetched activity list, the target distance in km (already
`Number(...)`-parsed; `ℚ` is always finite so only the `≤ 0` guard
remains), and the current timestamp in epoch milliseconds. -/
noncomputable def predict (acts : List RawAct) (targetKm : ℚ) (now : ℚ) :
    Except PredictError Success :=
  if targetKm ≤ 0 then .error .invalidInput
  else
    let p1 := stage1 acts
    if p1.length < MIN_POINTS then .error (.insufficientData msgNeedRuns)
    else
      let p2 := stage2 p1
      if p2.length < MIN_POINTS then .error (.insufficientData msgNotClean)
      else
        let p3 := stage3 p2
        if p3.length < MIN_POINTS then .error (.insufficientData msgOutliers)
        else
          match fitPowerLaw p3 now with
          | none => .error .modelFitFailed
          | some fit =>
            let targetM : ℝ := (targetKm : ℝ) * 1000
            let predSec := predictSeconds fit.logA fit.b targetM
            let lowSec := Real.exp (Real.log predSec - fit.rmseLog)
            let highSec := Real.exp (Real.log predSec + fit.rmseLog)
            .ok { distanceKm := targetKm
                  predictionSeconds := predSec
                  predictionTime := formatHHMMSS predSec
                  pacePerKmStr := pacePerKm predSec targetKm
                  confidenceLowTime := formatHHMMSS lowSec
                  confidenceHighTime := formatHHMMSS highSec
                  logA := fit.logA
                  b := fit.b
                  rmseLog := fit.rmseLog
                  usedPoints := p3.length }

/-- Age of a point in days, clamped at 0, as computed inside
`recencyWeight` (`ms / 86_400_000` after `Math.max(0, ...)`). -/
def ageDays (start now : ℚ) : ℚ := max 0 (now - start) / 86400000

/-- A raw Strava run record with distance 5000 m, moving time 1500 s, no
elapsed time, starting at epoch-ms `s` — the record shape used by the
spec's end-to-end example. -/
def mkRun (s : ℚ) : RawAct :=
  { type := some "Run", distance := .fin 5000, moving_time := .fin 1500,
    elapsed_time := none, start_date := some s }

/-- The cleaned point that `mkRun s` normalizes to. -/
def mkPt (s : ℚ) : Point :=
  { distance := 5000, movingTime := 1500, elapsedTime := none, startDate := s }

/-- Five start timestamps evenly spaced one day (86400000 ms) apart. -/
def c1starts : List ℚ := [0, 86400000, 172800000, 259200000, 345600000]

/-- The spec's end-to-end example input: 5 run records, all distance
5000 m and moving time 1500 s, evenly spaced in time. -/
def c1acts : List RawAct := c1starts.map mkRun

/-- The fixed `now` used with `c1acts` (the latest run's start time). -/
def c1now : ℚ := 345600000

/-- Modelled from the spec: the retention condition C3 asserts for the
normalize step — type label lower-cases to "run", distance and moving
time finite and strictly positive, start time parses.  (To be compared
with the condition the source actually applies.) -/
def specKeepC3 (a : RawAct) : Prop :=
  (∃ t, a.type = some t ∧ lowercase t = "run") ∧
  (∃ d, a.distance = .fin d ∧ 0 < d) ∧
  (∃ m, a.moving_time = .fin m ∧ 0 < m) ∧
  (∃ s, a.start_date = some s)

/-- The retention condition the source actually applies at stage 1:
as `specKeepC3`, except the distance must exceed `MIN_DISTANCE_M`
(800 m), not merely 0. -/
def amendedKeepC3 (a : RawAct) : Bool :=
  match a.type, a.distance, a.moving_time, a.start_date with
  | some t, .fin d, .fin m, some _ =>
    lowercase t == "run" && decide (MIN_DISTANCE_M < d) && decide (0 < m)
  | _, _, _, _ => false

/-- A raw record that is a run with finite positive distance (500 m) and
moving time, and a parsable start date — but distance below 800 m. -/
def act500 : RawAct :=
  { type := some "run", distance := .fin 500, moving_time := .fin 100,
    elapsed_time := none, start_date := some 0 }

/-- `recencyWeight` is `0.5 ^ (ageDays / 60)` by definition. -/
lemma recencyWeight_eq (start now : ℚ) :
    recencyWeight start now = ((1 : ℝ) / 2) ^ ((ageDays start now / 60 : ℚ) : ℝ) := by
  simp [recencyWeight, ageDays, HALF_LIFE_DAYS]

/-- C4: every point's regression weight is `0.5 ^ (ageDays / 60)` with age
measured from the fixed `now`; the weight is strictly antitone in the
(clamped) age; and a run exactly 60 days old weighs exactly half of an
otherwise identical run dated `now`. -/
theorem recencyWeight_halfLife_decay :
    (∀ start now : ℚ,
        recencyWeight start now = ((1 : ℝ) / 2) ^ ((ageDays start now / 60 : ℚ) : ℝ)) ∧
    (∀ s₁ s₂ now : ℚ, ageDays s₂ now < ageDays s₁ now →
        recencyWeight s₁ now < recencyWeight s₂ now) ∧
    (∀ s now : ℚ, now - s = 60 * 86400000 →
        recencyWeight s now = 1 / 2 * recencyWeight now now) := by
  refine ⟨recencyWeight_eq, ?_, ?_⟩
  · intro s₁ s₂ now h
    rw [recencyWeight_eq, recencyWeight_eq]
    rw [Real.rpow_lt_rpow_left_iff_of_base_lt_one (by norm_num) (by norm_num)]
    have hq : ageDays s₂ now / 60 < ageDays s₁ now / 60 := by gcongr
    exact_mod_cast hq
  · intro s now h
    rw [recencyWeight_eq, recencyWeight_eq]
    have h₁ : ageDays s now = 60 * 86400000 / 86400000 := by
      unfold ageDays; rw [h]; norm_num
    have h₂ : ageDays now now = 0 := by unfold ageDays; norm_num
    rw [h₁, h₂]
    norm_num [Real.rpow_one]

/-- Witness for C4 at concrete timestamps: with `now` at 60 days
(5184000000 ms), a 30-day-old run outweighs a 60-day-old one, and the
60-day-old run has exactly half the weight of a run dated `now`. -/
theorem recencyWeight_halfLife_decay_witness :
    recencyWeight 0 5184000000 < recencyWeight 2592000000 5184000000 ∧
    recencyWeight 0 5184000000 = 1 / 2 * recencyWeight 5184000000 5184000000 :=
  ⟨recencyWeight_halfLife_decay.2.1 0 2592000000 5184000000 (by norm_num [ageDays]),
   recencyWeight_halfLife_decay.2.2 0 5184000000 (by norm_num)⟩

/-- C9: for every start and `now` timestamp the recency weight lies in
`(0, 1]`, and a future-dated run (start no earlier than `now`) has its age
clamped to zero and gets weight exactly 1. -/
theorem recencyWeight_mem_Ioc :
    (∀ start now : ℚ, 0 < recencyWeight start now ∧ recencyWeight start now ≤ 1) ∧
    (∀ start now : ℚ, now ≤ start → recencyWeight start now = 1) := by
  constructor
  · intro start now
    constructor
    · exact Real.rpow_pos_of_pos (by norm_num) _
    · apply Real.rpow_le_one (by norm_num) (by norm_num)
      have hq : (0 : ℚ) ≤ max 0 (now - start) / 86400000 / HALF_LIFE_DAYS := by
        unfold HALF_LIFE_DAYS; positivity
      exact_mod_cast hq
  · intro start now h
    have hmax : max 0 (now - start) = 0 := by
      simp [max_eq_left, sub_nonpos.mpr h]
    simp [recencyWeight, hmax]

/-- Witness for C9 at a concrete future-dated run: start 1000 ms after
`now = 0` still weighs exactly 1, and the weight of a 1-day-old run is in
`(0, 1]`. -/
theorem recencyWeight_mem_Ioc_witness :
    (0 < recencyWeight 0 86400000 ∧ recencyWeight 0 86400000 ≤ 1) ∧
    recencyWeight 1000 0 = 1 :=
  ⟨recencyWeight_mem_Ioc.1 0 86400000,
   recencyWeight_mem_Ioc.2 1000 0 (by norm_num)⟩

/-- C10: the pause filter keeps every point whose elapsed time is absent
or non-positive, and divides `movingTime` by `elapsedTime` only in the
remaining case `0 < elapsedTime`, where it keeps the point exactly when
the ratio is at least 0.8; consequently such a point always survives
`stage2`. -/
theorem pauseFilter_no_div_by_nonpos :
    (∀ p : Point, p.elapsedTime = none → pauseOk p = true) ∧
    (∀ (p : Point) (e : ℚ), p.elapsedTime = some e → e ≤ 0 → pauseOk p = true) ∧
    (∀ (p : Point) (e : ℚ), p.elapsedTime = some e → 0 < e →
        (pauseOk p = true ↔ pauseRatioMin ≤ p.movingTime / e)) ∧
    (∀ (pts : List Point) (p : Point), p ∈ pts →
        (p.elapsedTime = none ∨ ∃ e, p.elapsedTime = some e ∧ e ≤ 0) →
        p ∈ stage2 pts) := by
  refine ⟨?_, ?_, ?_, ?_⟩
  · intro p h; simp [pauseOk, h]
  · intro p e h he; simp [pauseOk, h, if_pos he]
  · intro p e h he
    simp [pauseOk, h, if_neg (not_le.mpr he)]
  · intro pts p hmem hcase
    rw [stage2, List.mem_filter]
    refine ⟨hmem, ?_⟩
    rcases hcase with h | ⟨e, h, he⟩
    · simp [pauseOk, h]
    · simp [pauseOk, h, if_pos he]

/-- Witness for C10 at concrete points: elapsed-time-free and
negative-elapsed points pass the pause filter; a positive elapsed time
turns the filter into the 0.8-ratio test. -/
theorem pauseFilter_no_div_by_nonpos_witness :
    pauseOk ⟨5000, 1500, none, 0⟩ = true ∧
    pauseOk ⟨5000, 1500, some (-7), 0⟩ = true ∧
    (pauseOk ⟨5000, 1500, some 2000, 0⟩ = true ↔
      pauseRatioMin ≤ (1500 : ℚ) / 2000) ∧
    (⟨5000, 1500, some (-7), 0⟩ : Point) ∈ stage2 [⟨5000, 1500, some (-7), 0⟩] :=
  ⟨pauseFilter_no_div_by_nonpos.1 _ rfl,
   pauseFilter_no_div_by_nonpos.2.1 _ (-7) rfl (by norm_num),
   pauseFilter_no_div_by_nonpos.2.2.1 _ 2000 rfl (by norm_num),
   pauseFilter_no_div_by_nonpos.2.2.2 _ _ (by simp) (Or.inr ⟨-7, rfl, by norm_num⟩)⟩

/-- C6: pace is `movingTime / distance`; a point is in the outlier-filtered
list exactly when it is in the input and its own pace lies within
`[0.5 × median, 2.0 × median]` of the input's pace list; hence whether a
point is kept depends only on its pace (never on its recency weight). -/
theorem outlierFilter_median_band :
    (∀ p : Point, pace p = p.movingTime / p.distance) ∧
    (∀ (pts : List Point) (p : Point),
        p ∈ stage3 pts ↔ p ∈ pts ∧
          1 / 2 * median (pts.map pace) ≤ pace p ∧
          pace p ≤ 2 * median (pts.map pace)) ∧
    (∀ (pts : List Point) (p₁ p₂ : Point), p₁ ∈ pts → p₂ ∈ pts →
        pace p₁ = pace p₂ → (p₁ ∈ stage3 pts ↔ p₂ ∈ stage3 pts)) := by
  have hmem : ∀ (pts : List Point) (p : Point),
      p ∈ stage3 pts ↔ p ∈ pts ∧
        1 / 2 * median (pts.map pace) ≤ pace p ∧
        pace p ≤ 2 * median (pts.map pace) := by
    intro pts p
    rw [stage3, List.mem_filter]
    simp
  refine ⟨fun _ => rfl, hmem, ?_⟩
  intro pts p₁ p₂ h₁ h₂ hp
  rw [hmem, hmem, hp]
  tauto

/-- C8: the pipeline is deterministic — two invocations on equal activity
lists, equal target distances and equal `now` timestamps return equal
results (every field, formatted strings included, since the result is a
pure function of the inputs). -/
theorem predict_deterministic (a₁ a₂ : List RawAct) (k₁ k₂ now₁ now₂ : ℚ)
    (ha : a₁ = a₂) (hk : k₁ = k₂) (hn : now₁ = now₂) :
    predict a₁ k₁ now₁ = predict a₂ k₂ now₂ := by
  rw [ha, hk, hn]

/-- Witness for C8 at a concrete invocation. -/
theorem predict_deterministic_witness :
    predict [] 5 0 = predict [] 5 0 :=
  predict_deterministic [] [] 5 5 0 0 rfl rfl rfl

/-- C7: for any fit parameters, any positive target distance and any
`rmseLog ≥ 0`, the bounds `exp(log(predicted) ∓ rmseLog)` bracket the
point estimate: `low ≤ predicted ≤ high`. -/
theorem confidence_bounds_bracket (logA b targetM r : ℝ)
    (hM : 0 < targetM) (hr : 0 ≤ r) :
    Real.exp (Real.log (predictSeconds logA b targetM) - r) ≤
      predictSeconds logA b targetM ∧
    predictSeconds logA b targetM ≤
      Real.exp (Real.log (predictSeconds logA b targetM) + r) := by
  have hP : 0 < predictSeconds logA b targetM :=
    mul_pos (Real.exp_pos _) (Real.rpow_pos_of_pos hM _)
  have h1 : (1 : ℝ) ≤ Real.exp r := Real.one_le_exp_iff.mpr hr
  constructor
  · rw [Real.exp_sub, Real.exp_log hP]
    exact div_le_self hP.le h1
  · rw [Real.exp_add, Real.exp_log hP]
    exact le_mul_of_one_le_right hP.le h1

/-- Witness for C7 at concrete parameters `logA = 0`, `b = 1`,
`targetM = 5000`, `rmseLog = 1`. -/
theorem confidence_bounds_bracket_witness :
    Real.exp (Real.log (predictSeconds 0 1 5000) - 1) ≤ predictSeconds 0 1 5000 ∧
    predictSeconds 0 1 5000 ≤ Real.exp (Real.log (predictSeconds 0 1 5000) + 1) :=
  confidence_bounds_bracket 0 1 5000 1 (by norm_num) (by norm_num)

/-- When every point has distance `d`, `Σ w·x = log d · Σ w`. -/
lemma sumWX_const_dist (pts : List Point) (now d : ℚ)
    (h : ∀ p ∈ pts, p.distance = d) :
    sumWX pts now = Real.log (d : ℝ) * sumW pts now := by
  induction pts with
  | nil => simp [sumWX, sumW]
  | cons p l ih =>
    have hp : p.distance = d := h p (List.mem_cons_self p l)
    have hl := ih (fun q hq => h q (List.mem_cons_of_mem p hq))
    simp only [sumWX, sumW, List.map_cons, List.sum_cons] at *
    rw [hl, xlog, hp]
    ring

/-- When every point has distance `d`, `Σ w·x·x = (log d)² · Σ w`. -/
lemma sumWXX_const_dist (pts : List Point) (now d : ℚ)
    (h : ∀ p ∈ pts, p.distance = d) :
    sumWXX pts now = Real.log (d : ℝ) * Real.log (d : ℝ) * sumW pts now := by
  induction pts with
  | nil => simp [sumWXX, sumW]
  | cons p l ih =>
    have hp : p.distance = d := h p (List.mem_cons_self p l)
    have hl := ih (fun q hq => h q (List.mem_cons_of_mem p hq))
    simp only [sumWXX, sumW, List.map_cons, List.sum_cons] at *
    rw [hl, xlog, hp]
    ring

/-- When every point has the same distance the normal-equations
determinant vanishes exactly. -/
lemma fitDet_const_dist (pts : List Point) (now d : ℚ)
    (h : ∀ p ∈ pts, p.distance = d) : fitDet pts now = 0 := by
  rw [fitDet, sumWX_const_dist pts now d h, sumWXX_const_dist pts now d h]
  ring

/-- When every point has the same distance, `fitPowerLaw` returns `none`
(either the list is too short, or `|det| = 0 < 1e-12` trips the guard). -/
lemma fitPowerLaw_const_dist_none (pts : List Point) (now d : ℚ)
    (h : ∀ p ∈ pts, p.distance = d) : fitPowerLaw pts now = none := by
  rw [fitPowerLaw]
  split
  · rfl
  · rw [if_pos]
    left
    rw [fitDet_const_dist pts now d h]
    norm_num

/-- Unfolding `predict` on the success path of the three length guards
down to a failed fit. -/
lemma predict_fit_none (acts : List RawAct) (k now : ℚ)
    (hk : ¬ k ≤ 0)
    (h1 : ¬ (stage1 acts).length < MIN_POINTS)
    (h2 : ¬ (stage2 (stage1 acts)).length < MIN_POINTS)
    (h3 : ¬ (stage3 (stage2 (stage1 acts))).length < MIN_POINTS)
    (hfit : fitPowerLaw (stage3 (stage2 (stage1 acts))) now = none) :
    predict acts k now = .error .modelFitFailed := by
  rw [predict, if_neg hk, if_neg h1, if_neg h2, if_neg h3, hfit]

/-- Sorting a constant list returns it unchanged. -/
lemma mergeSort_replicate (n : ℕ) (q : ℚ) :
    (List.replicate n q).mergeSort (fun a b => a ≤ b) = List.replicate n q := by
  have h := List.mergeSort_perm (List.replicate n q) (fun a b : ℚ => a ≤ b)
  have hlen : ((List.replicate n q).mergeSort (fun a b : ℚ => a ≤ b)).length = n := by
    rw [h.length_eq, List.length_replicate]
  have hrep := List.eq_replicate_length.mpr
    (fun b hb => List.eq_of_mem_replicate (h.mem_iff.mp hb) :
      ∀ b ∈ (List.replicate n q).mergeSort (fun a b : ℚ => a ≤ b), b = q)
  rw [hrep, hlen]

/-- The median of a nonempty constant list is that constant. -/
lemma median_replicate (n : ℕ) (hn : n ≠ 0) (q : ℚ) :
    median (List.replicate n q) = q := by
  rw [median]
  simp only [List.length_replicate, mergeSort_replicate]
  rw [if_neg hn]
  have hget : ∀ i : ℕ, i < n → (List.replicate n q).getD i 0 = q := by
    intro i hi
    simp [List.getD, List.getElem?_replicate, hi]
  have hmid : n / 2 < n := Nat.div_lt_self (Nat.pos_of_ne_zero hn) one_lt_two
  have hmid' : n / 2 - 1 < n := lt_of_le_of_lt (Nat.sub_le _ _) hmid
  split
  · exact hget _ hmid
  · rw [hget _ hmid, hget _ hmid']
    ring

/-- The median of a nonempty list whose members are all `q` is `q`. -/
lemma median_const (l : List ℚ) (q : ℚ) (h : ∀ a ∈ l, a = q) (hl : l ≠ []) :
    median l = q := by
  have : l = List.replicate l.length q := List.eq_replicate_length.mpr h
  rw [this]
  exact median_replicate _ (by simpa using List.length_pos.mpr hl |>.ne') q

/-- Stage 1 maps each `mkRun` record to its point: the type label
lower-cases to "run", 5000 m exceeds the 800 m floor, 1500 s is positive,
and the start date is present. -/
lemma stage1_mkRuns (starts : List ℚ) :
    stage1 (starts.map mkRun) = starts.map mkPt := by
  induction starts with
  | nil => rfl
  | cons s l ih =>
    have hlow : lowercase "Run" = "run" := by decide
    simp only [List.map_cons, stage1, List.filterMap_cons] at *
    rw [show mapStravaAct (mkRun s) = some (mkPt s) by
      simp [mapStravaAct, mkRun, hlow, mkPt]]
    rw [List.filter_cons]
    rw [show (decide (MIN_DISTANCE_M < (mkPt s).distance) &&
        decide (0 < (mkPt s).movingTime)) = true by
      simp [mkPt, MIN_DISTANCE_M]; norm_num]
    simp only [if_pos]
    rw [ih]

/-- The pause filter keeps every point that has no elapsed time. -/
lemma stage2_of_no_elapsed (pts : List Point)
    (h : ∀ p ∈ pts, p.elapsedTime = none) : stage2 pts = pts := by
  apply List.filter_eq_self.mpr
  intro p hp
  simp [pauseOk, h p hp]

/-- The outlier filter keeps every point of a nonempty set whose paces
are all equal to some positive `q` (the median is then `q` itself and
`q/2 ≤ q ≤ 2q`). -/
lemma stage3_const_pace (pts : List Point) (q : ℚ)
    (h : ∀ p ∈ pts, pace p = q) (hq : 0 < q) (hne : pts ≠ []) :
    stage3 pts = pts := by
  rw [stage3]
  have hmed : median (pts.map pace) = q := by
    apply median_const
    · intro a ha
      obtain ⟨p, hp, rfl⟩ := List.mem_map.mp ha
      exact h p hp
    · simpa using hne
  rw [hmed]
  apply List.filter_eq_self.mpr
  intro p hp
  rw [h p hp]
  simp only [Bool.and_eq_true, decide_eq_true_eq]
  constructor <;> linarith

/-- Pace of the example point: `1500 / 5000 = 3/10` s per meter. -/
lemma pace_mkPt (s : ℚ) : pace (mkPt s) = 3 / 10 := by
  rw [pace, mkPt]
  norm_num

/-- All three filtering stages leave a nonempty list of `mkRun` records
untouched. -/
lemma stages_mkRuns (starts : List ℚ) (hne : starts ≠ []) :
    stage3 (stage2 (stage1 (starts.map mkRun))) = starts.map mkPt := by
  rw [stage1_mkRuns]
  rw [stage2_of_no_elapsed _ (by
    intro p hp
    obtain ⟨s, _, rfl⟩ := List.mem_map.mp hp
    rfl)]
  apply stage3_const_pace _ (3 / 10)
  · intro p hp
    obtain ⟨s, _, rfl⟩ := List.mem_map.mp hp
    exact pace_mkPt s
  · norm_num
  · simpa using hne

/-- Witness for C6 at a concrete point set: with four points all at pace
3/10 s/m the median is 3/10 and each point lies inside the
`[0.5×median, 2×median]` band, so it survives the outlier filter. -/
theorem outlierFilter_median_band_witness :
    mkPt 0 ∈ stage3 ([0, 1, 2, 3].map mkPt) := by
  have hmed : median ((([0, 1, 2, 3] : List ℚ).map mkPt).map pace) = 3 / 10 := by
    apply median_const
    · intro a ha
      obtain ⟨p, hp, rfl⟩ := List.mem_map.mp ha
      obtain ⟨s, _, rfl⟩ := List.mem_map.mp hp
      exact pace_mkPt s
    · simp
  exact (outlierFilter_median_band.2.1 _ _).mpr
    ⟨by simp, by rw [hmed, pace_mkPt]; norm_num,
     by rw [hmed, pace_mkPt]; norm_num⟩

/-- C2: when every point shares one distance and one moving time the
normal-equations determinant is exactly 0, `fitPowerLaw` returns `none`
(the `|det| < 1e-12` guard fires before any division by `det`), and a
request whose filtered point set is such a set fails with
`ModelFitFailed`. -/
theorem fit_identical_points_degenerate (pts : List Point) (now d t : ℚ)
    (h : ∀ p ∈ pts, p.distance = d ∧ p.movingTime = t) :
    fitDet pts now = 0 ∧ fitPowerLaw pts now = none ∧
    ∀ (acts : List RawAct) (k : ℚ), ¬ k ≤ 0 →
      stage3 (stage2 (stage1 acts)) = pts →
      ¬ (stage1 acts).length < MIN_POINTS →
      ¬ (stage2 (stage1 acts)).length < MIN_POINTS →
      ¬ pts.length < MIN_POINTS →
      predict acts k now = .error .modelFitFailed := by
  have hd : ∀ p ∈ pts, p.distance = d := fun p hp => (h p hp).1
  refine ⟨fitDet_const_dist pts now d hd, fitPowerLaw_const_dist_none pts now d hd, ?_⟩
  intro acts k hk hstages h1 h2 h3
  apply predict_fit_none acts k now hk h1 h2
  · rw [hstages]; exact h3
  · rw [hstages]; exact fitPowerLaw_const_dist_none pts now d hd

/-- Witness for C2: four runs all with distance 5000 m and moving time
1500 s make the fit degenerate and the whole request fail with
`ModelFitFailed`. -/
theorem fit_identical_points_degenerate_witness :
    fitDet ([0, 1, 2, 3].map mkPt) 3 = 0 ∧
    fitPowerLaw ([0, 1, 2, 3].map mkPt) 3 = none ∧
    predict ([0, 1, 2, 3].map mkRun) 5 3 = .error .modelFitFailed := by
  have hconst : ∀ p ∈ ([0, 1, 2, 3] : List ℚ).map mkPt,
      p.distance = 5000 ∧ p.movingTime = 1500 := by
    intro p hp
    obtain ⟨s, _, rfl⟩ := List.mem_map.mp hp
    exact ⟨rfl, rfl⟩
  have hmain := fit_identical_points_degenerate ([0, 1, 2, 3].map mkPt) 3 5000 1500 hconst
  refine ⟨hmain.1, hmain.2.1, ?_⟩
  apply hmain.2.2 ([0, 1, 2, 3].map mkRun) 5 (by norm_num)
    (stages_mkRuns [0, 1, 2, 3] (by simp))
  · rw [stage1_mkRuns]; decide
  · rw [stage1_mkRuns, stage2_of_no_elapsed]
    · decide
    · intro p hp
      obtain ⟨s, _, rfl⟩ := List.mem_map.mp hp
      rfl
  · decide

/-- The spec's end-to-end example (C1's input) in fact hits the
degenerate-fit guard: all five runs share distance 5000 m, so the
log-distances coincide, `det = 0 < 1e-12` and the request fails. -/
lemma c1_result : predict c1acts 5 c1now = .error .modelFitFailed := by
  have hconst : ∀ p ∈ c1starts.map mkPt, p.distance = 5000 ∧ p.movingTime = 1500 := by
    intro p hp
    obtain ⟨s, _, rfl⟩ := List.mem_map.mp hp
    exact ⟨rfl, rfl⟩
  apply predict_fit_none c1acts 5 c1now (by norm_num)
  · rw [c1acts, stage1_mkRuns]; decide
  · rw [c1acts, stage1_mkRuns, stage2_of_no_elapsed]
    · decide
    · intro p hp
      obtain ⟨s, _, rfl⟩ := List.mem_map.mp hp
      rfl
  · rw [c1acts, stages_mkRuns c1starts (by rw [c1starts]; simp)]; decide
  · rw [c1acts, stages_mkRuns c1starts (by rw [c1starts]; simp)]
    exact fitPowerLaw_const_dist_none _ _ 5000 (fun p hp => (hconst p hp).1)

/-- C1 counterexample: on the spec's end-to-end example input (5 runs,
all distance 5000 m, moving time 1500 s, evenly spaced, target 5 km) the
predictor returns no successful prediction at all. -/
theorem c1_example_not_successful :
    (predict c1acts 5 c1now).toOption = none := by
  rw [c1_result]
  rfl

/-- C1 (amended): on that same input the predictor fails with
`ModelFitFailed`, because the five identical distances make the
regression degenerate (`det = 0`). -/
theorem c1_example_fit_fails :
    predict c1acts 5 c1now = .error .modelFitFailed := c1_result

/-- C5: with a valid target distance, each of the three filtering stages
fails with its own distinct `InsufficientData` message when fewer than
`MIN_POINTS = 4` points remain, and when 4 or more remain at every stage
the request proceeds past all the `InsufficientData` gates. -/
theorem stage_gates (acts : List RawAct) (k now : ℚ) (hk : ¬ k ≤ 0) :
    ((stage1 acts).length < MIN_POINTS →
        predict acts k now = .error (.insufficientData msgNeedRuns)) ∧
    (¬ (stage1 acts).length < MIN_POINTS →
      (stage2 (stage1 acts)).length < MIN_POINTS →
        predict acts k now = .error (.insufficientData msgNotClean)) ∧
    (¬ (stage1 acts).length < MIN_POINTS →
      ¬ (stage2 (stage1 acts)).length < MIN_POINTS →
      (stage3 (stage2 (stage1 acts))).length < MIN_POINTS →
        predict acts k now = .error (.insufficientData msgOutliers)) ∧
    (¬ (stage1 acts).length < MIN_POINTS →
      ¬ (stage2 (stage1 acts)).length < MIN_POINTS →
      ¬ (stage3 (stage2 (stage1 acts))).length < MIN_POINTS →
        ∀ m, predict acts k now ≠ .error (.insufficientData m)) ∧
    (msgNeedRuns ≠ msgNotClean ∧ msgNeedRuns ≠ msgOutliers ∧
      msgNotClean ≠ msgOutliers) ∧
    MIN_POINTS = 4 := by
  refine ⟨?_, ?_, ?_, ?_, by refine ⟨?_, ?_, ?_⟩ <;> decide, rfl⟩
  · intro h1
    rw [predict, if_neg hk, if_pos h1]
  · intro h1 h2
    rw [predict, if_neg hk, if_neg h1, if_pos h2]
  · intro h1 h2 h3
    rw [predict, if_neg hk, if_neg h1, if_neg h2, if_pos h3]
  · intro h1 h2 h3 m
    rw [predict, if_neg hk, if_neg h1, if_neg h2, if_neg h3]
    cases hfit : fitPowerLaw (stage3 (stage2 (stage1 acts))) now <;> simp

/-- Witness for C5 at the boundary: exactly 3 valid runs fail at the
first gate with the first message, and exactly 4 valid runs pass all
three `InsufficientData` gates. -/
theorem stage_gates_witness :
    predict ([0, 1, 2].map mkRun) 5 2 = .error (.insufficientData msgNeedRuns) ∧
    ∀ m, predict ([0, 1, 2, 3].map mkRun) 5 3 ≠ .error (.insufficientData m) := by
  constructor
  · apply (stage_gates ([0, 1, 2].map mkRun) 5 2 (by norm_num)).1
    rw [stage1_mkRuns]
    decide
  · have hnone : ∀ p ∈ ([0, 1, 2, 3] : List ℚ).map mkPt, p.elapsedTime = none := by
      intro p hp
      obtain ⟨s, _, rfl⟩ := List.mem_map.mp hp
      rfl
    apply (stage_gates ([0, 1, 2, 3].map mkRun) 5 3 (by norm_num)).2.2.2.1
    · rw [stage1_mkRuns]; decide
    · rw [stage1_mkRuns, stage2_of_no_elapsed _ hnone]; decide
    · rw [stages_mkRuns [0, 1, 2, 3] (by simp)]; decide

/-- The stage-1 retention condition the source applies to a single raw
record, as a proposition: `mapStravaAct` keeps it and the resulting
point passes the `distance > 800 ∧ movingTime > 0` filter. -/
lemma stage1_mem_iff (acts : List RawAct) (p : Point) :
    p ∈ stage1 acts ↔ ∃ a ∈ acts, mapStravaAct a = some p ∧
      MIN_DISTANCE_M < p.distance ∧ 0 < p.movingTime := by
  rw [stage1]
  rw [List.mem_filter]
  simp only [List.mem_filterMap, Bool.and_eq_true, decide_eq_true_eq]
  tauto

/-- C3 (amended): a raw record contributes a point to the normalize
stage exactly when its type label lower-cases to "run", its distance is
finite and exceeds `MIN_DISTANCE_M = 800` meters, its moving time is
finite and strictly positive, and its start time parses; and membership
in the stage-1 output is exactly "some input record normalizes to this
point and passes that filter". -/
theorem normalize_keeps_iff :
    (∀ a : RawAct,
      (∃ p, mapStravaAct a = some p ∧
        MIN_DISTANCE_M < p.distance ∧ 0 < p.movingTime) ↔
      amendedKeepC3 a = true) ∧
    (∀ (acts : List RawAct) (p : Point),
      p ∈ stage1 acts ↔ ∃ a ∈ acts, mapStravaAct a = some p ∧
        MIN_DISTANCE_M < p.distance ∧ 0 < p.movingTime) := by
  refine ⟨?_, stage1_mem_iff⟩
  intro a
  obtain ⟨ty, d, m, e, s⟩ := a
  cases ty with
  | none => simp [mapStravaAct, amendedKeepC3]
  | some t =>
    by_cases hrun : lowercase t = "run"
    · cases d <;> cases m <;> cases s <;>
        simp [mapStravaAct, amendedKeepC3, hrun]
    · cases d <;> cases m <;> cases s <;>
        simp [mapStravaAct, amendedKeepC3, hrun]

/-- C3 counterexample: `act500` is a run with finite strictly positive
distance (500 m) and moving time and a parsable start time — the claim
says it is retained — yet the normalize stage discards it, because the
source additionally requires `distance > MIN_DISTANCE_M = 800`. -/
theorem normalize_counterexample :
    specKeepC3 act500 ∧ stage1 [act500] = [] := by
  constructor
  · exact ⟨⟨"run", rfl, by decide⟩, ⟨500, rfl, by norm_num⟩,
      ⟨100, rfl, by norm_num⟩, ⟨0, rfl⟩⟩
  · rw [stage1]
    simp only [List.filterMap_cons, List.filterMap_nil]
    rw [show mapStravaAct act500 =
        some { distance := 500, movingTime := 100, elapsedTime := none,
               startDate := 0 } from by
      simp [mapStravaAct, act500, show lowercase "run" = "run" by decide]]
    norm_num [List.filter, MIN_DISTANCE_M]

end StravaPredictor
